import Mathlib

/-!
# SKPONTO client script (`app/static/js/app.js`)

A shallow embedding of the pure parts of the script: the CPF validator, the
CPF and phone input masks, the e-mail check of `validateField`, the CSV
builder of `exportTableToCSV`, the `registerTime` button protocol, the daily
reminder check and the message truncation of `loadRecentNotifications`.

JavaScript strings are sequences of UTF-16 code units; they are modelled as
lists of natural numbers, one per code unit.
-/

namespace SKPonto

/-- A JavaScript string: the list of its UTF-16 code units. -/
abbrev JSString := List Nat

/-- The code units of a literal (used for ASCII and Latin-1 literals only). -/
def lit (s : String) : JSString := s.toList.map Char.toNat

/-- The regex class `\d`: the code units of `0` to `9`. -/
def isDigit (c : Nat) : Bool := decide (48 ≤ c) && decide (c ≤ 57)

/-- Both `s.replace(/[^\d]+/g, '')` and `s.replace(/\D/g, '')`: every code unit
that is not a decimal digit is removed. -/
def stripNonDigits (s : JSString) : JSString := s.filter isDigit

/-- The value of `parseInt(s.charAt(i))`; `none` stands for `NaN`, which is what
`parseInt` gives on the empty string (index out of range) and on a code unit
that is not a digit. -/
def parseIntCharAt (s : JSString) (i : Nat) : Option Nat :=
  match s.get? i with
  | some c => if isDigit c then some (c - 48) else none
  | none => none

/-- The test `/^(\d)\1{10}$/.test(cpf)`: a digit followed by exactly ten copies of
itself, and nothing else. -/
def allSameDigit (cpf : JSString) : Bool :=
  match cpf with
  | [] => false
  | c :: rest => isDigit c && decide (rest.length = 10) && rest.all (fun x => x == c)

/-- The loop `for (let i = 0; i < n; i++) sum += parseInt(cpf.charAt(i)) * (w - i)`
started from `sum = 0`; `none` stands for `NaN`. -/
def weightedSum (cpf : JSString) (n w : Nat) : Option Nat :=
  (List.range n).foldl
    (fun sum i =>
      match sum, parseIntCharAt cpf i with
      | some acc, some d => some (acc + d * (w - i))
      | _, _ => none)
    (some 0)

/-- The two lines `let remainder = (sum * 10) % 11;
if (remainder === 10 || remainder === 11) remainder = 0;`. -/
def checkRemainder (sum : Nat) : Nat :=
  let remainder := (sum * 10) % 11
  if remainder = 10 ∨ remainder = 11 then 0 else remainder

/-- The comparison `remainder !== parseInt(cpf.charAt(i))` of `validateCPF`, where
`remainder` comes from a sum that may be `NaN`; a `NaN` on either side makes the
two sides different. -/
def remainderDiffers (sum : Option Nat) (digit : Option Nat) : Bool :=
  match sum, digit with
  | some s, some d => decide (checkRemainder s ≠ d)
  | _, _ => true

/-- The function `validateCPF(cpf)`. -/
def validateCPF (cpf0 : JSString) : Bool :=
  let cpf := stripNonDigits cpf0
  if decide (cpf.length ≠ 11) || allSameDigit cpf then false
  else if remainderDiffers (weightedSum cpf 9 10) (parseIntCharAt cpf 9) then false
  else if remainderDiffers (weightedSum cpf 10 11) (parseIntCharAt cpf 10) then false
  else true

/-- The decimal digits of a string, as numbers, in order, every other code unit
being skipped. -/
def digitsOf (s : JSString) : List Nat := (stripNonDigits s).map (fun c => c - 48)

/-- The check digit as the specification words it: `(sum * 10) mod 11`, with 10
replaced by 0. -/
def specCheckDigit (sum : Nat) : Nat :=
  if sum * 10 % 11 = 10 then 0 else sum * 10 % 11

/-- The check digit of the standard Brazilian rule: 0 when the weighted sum
modulo 11 is less than 2, and otherwise 11 minus the weighted sum modulo 11. -/
def stdCheckDigit (sum : Nat) : Nat :=
  if sum % 11 < 2 then 0 else 11 - sum % 11

/-- The standard Brazilian rule on a list of digits: eleven digits, not all
identical, whose tenth and eleventh digits are the standard check digits of the
weighted sums with weights 10..2 over the first nine digits and 11..2 over the
first ten. -/
def stdValidCPF : List Nat → Bool
  | [d1, d2, d3, d4, d5, d6, d7, d8, d9, d10, d11] =>
    !(d2 == d1 && d3 == d1 && d4 == d1 && d5 == d1 && d6 == d1 && d7 == d1 && d8 == d1 &&
        d9 == d1 && d10 == d1 && d11 == d1) &&
    d10 == stdCheckDigit
      (10 * d1 + 9 * d2 + 8 * d3 + 7 * d4 + 6 * d5 + 5 * d6 + 4 * d7 + 3 * d8 + 2 * d9) &&
    d11 == stdCheckDigit
      (11 * d1 + 10 * d2 + 9 * d3 + 8 * d4 + 7 * d5 + 6 * d6 + 5 * d7 + 4 * d8 + 3 * d9
        + 2 * d10)
  | _ => false

/-! ## Input masks -/

/-- The pattern `\d{n}` matched at the very start of `s`: the first `n` code units
exist and are digits. -/
def startsWithDigits : Nat → JSString → Bool
  | 0, _ => true
  | _ + 1, [] => false
  | n + 1, c :: s => isDigit c && startsWithDigits n s

/-- The call `value.replace(re, fmt)` for a regex `re` without the `g` flag that is
a sequence of digit groups of total width `n`: the leftmost run of `n` digits is
replaced by `fmt` applied to it, the text before and after is kept; without a
match the string is unchanged. -/
def replaceFirstDigits (n : Nat) (fmt : JSString → JSString) : JSString → JSString
  | [] => if startsWithDigits n [] then fmt [] else []
  | c :: s =>
    if startsWithDigits n (c :: s) then fmt ((c :: s).take n) ++ (c :: s).drop n
    else c :: replaceFirstDigits n fmt s

/-- The replacement `'$1.$2.$3-$4'` for the groups `(\d{3})(\d{3})(\d{3})(\d{2})`. -/
def cpfFormat (m : JSString) : JSString :=
  m.take 3 ++ lit "." ++ (m.drop 3).take 3 ++ lit "." ++ (m.drop 6).take 3 ++ lit "-" ++
    (m.drop 9).take 2

/-- The replacement `'($1) $2-$3'` for the groups `(\d{2})(\d{4})(\d{4})`. -/
def phoneFormat10 (m : JSString) : JSString :=
  lit "(" ++ m.take 2 ++ lit ") " ++ (m.drop 2).take 4 ++ lit "-" ++ (m.drop 6).take 4

/-- The replacement `'($1) $2-$3'` for the groups `(\d{2})(\d{5})(\d{4})`. -/
def phoneFormat11 (m : JSString) : JSString :=
  lit "(" ++ m.take 2 ++ lit ") " ++ (m.drop 2).take 5 ++ lit "-" ++ (m.drop 7).take 4

/-- The `.cpf-mask` input handler, from the field's text to its text afterwards. -/
def cpfMask (text : JSString) : JSString :=
  let value := stripNonDigits text
  if value.length ≤ 11 then replaceFirstDigits 11 cpfFormat value
  else text

/-- The `.phone-mask` input handler, from the field's text to its text afterwards. -/
def phoneMask (text : JSString) : JSString :=
  let value := stripNonDigits text
  if value.length ≤ 11 then
    if value.length ≤ 10 then replaceFirstDigits 10 phoneFormat10 value
    else replaceFirstDigits 11 phoneFormat11 value
  else text

/-- A text of the form `(NN) NNNN-NNNN`, each `N` a decimal digit. -/
def isPhoneForm10 : JSString → Bool
  | [40, a, b, 41, 32, c, d, e, f, 45, g, h, i, j] =>
    isDigit a && isDigit b && isDigit c && isDigit d && isDigit e && isDigit f && isDigit g &&
      isDigit h && isDigit i && isDigit j
  | _ => false

/-! ## Regular expressions and the e-mail check -/

/-- The regex class `\s` on UTF-16 code units: tab, line feed, vertical tab, form
feed, carriage return, space, no-break space, U+1680, U+2000 to U+200A, the line
and paragraph separators, U+202F, U+205F, U+3000 and the byte order mark. -/
def isSpace (c : Nat) : Bool :=
  c == 9 || c == 10 || c == 11 || c == 12 || c == 13 || c == 32 || c == 160 || c == 5760 ||
    (decide (8192 ≤ c) && decide (c ≤ 8202)) || c == 8232 || c == 8233 || c == 8239 ||
    c == 8287 || c == 12288 || c == 65279

/-- The regex class `[^\s@]`. -/
def notSpaceAt (c : Nat) : Bool := !(isSpace c || c == 64)

/-- Regular expressions over code units, with classes given by predicates. -/
inductive Regex where
  | empty : Regex
  | eps : Regex
  | cls (p : Nat → Bool) : Regex
  | alt (r q : Regex) : Regex
  | seq (r q : Regex) : Regex
  | star (r : Regex) : Regex

namespace Regex

/-- The regex `r+`. -/
def plus (r : Regex) : Regex := seq r (star r)

/-- Whether the regex matches the empty string. -/
def nullable : Regex → Bool
  | empty => false
  | eps => true
  | cls _ => false
  | alt r q => nullable r || nullable q
  | seq r q => nullable r && nullable q
  | star _ => true

/-- The derivative of a regex by one code unit. -/
def deriv (c : Nat) : Regex → Regex
  | empty => empty
  | eps => empty
  | cls p => if p c then eps else empty
  | alt r q => alt (deriv c r) (deriv c q)
  | seq r q => if nullable r then alt (seq (deriv c r) q) (deriv c q) else seq (deriv c r) q
  | star r => seq (deriv c r) (star r)

/-- The call `/^r$/.test(s)`: the whole of `s` matches `r`. -/
def test (r : Regex) (s : JSString) : Bool := (s.foldl (fun q c => deriv c q) r).nullable

/-- The strings a regex matches. -/
def Lang : Regex → JSString → Prop
  | empty, _ => False
  | eps, s => s = []
  | cls p, s => ∃ c, s = [c] ∧ p c = true
  | alt r q, s => Lang r s ∨ Lang q s
  | seq r q, s => ∃ a b, s = a ++ b ∧ Lang r a ∧ Lang q b
  | star r, s => ∃ parts : List JSString, s = parts.flatten ∧ ∀ p ∈ parts, p ≠ [] ∧ Lang r p

end Regex

/-- The regex `/^[^\s@]+@[^\s@]+\.[^\s@]+$/` of `validateField`. -/
def emailRegex : Regex :=
  Regex.seq (Regex.plus (Regex.cls notSpaceAt))
    (Regex.seq (Regex.cls (fun c => c == 64))
      (Regex.seq (Regex.plus (Regex.cls notSpaceAt))
        (Regex.seq (Regex.cls (fun c => c == 46)) (Regex.plus (Regex.cls notSpaceAt)))))

/-- The e-mail branch of `validateField`: the message it passes to
`setCustomValidity` for a field of type `email` holding `value`. -/
def emailCustomValidity (value : JSString) : JSString :=
  if !(emailRegex.test value) && decide (value.length > 0) then lit "Email inválido"
  else lit ""

/-- The shape `a@b.c` with `a` and `b` non-empty runs of code units that are
neither whitespace nor `@`, and `c` a non-empty run of code units satisfying
`last`. -/
def EmailShape (last : Nat → Bool) (v : JSString) : Prop :=
  ∃ a b c : JSString, v = a ++ [64] ++ b ++ [46] ++ c ∧
    a ≠ [] ∧ (∀ x ∈ a, notSpaceAt x = true) ∧
    b ≠ [] ∧ (∀ x ∈ b, notSpaceAt x = true) ∧
    c ≠ [] ∧ (∀ x ∈ c, last x = true)

/-! ## CSV export -/

/-- The method `String.prototype.trim`: white space and line terminators (the code
units of the class `\s`) are removed from both ends. -/
def trim (s : JSString) : JSString :=
  ((s.dropWhile isSpace).reverse.dropWhile isSpace).reverse

/-- The method `Array.prototype.join(sep)` on an array of strings. -/
def join (sep : JSString) : List JSString → JSString
  | [] => []
  | [x] => x
  | x :: y :: rest => x ++ sep ++ join sep (y :: rest)

/-- The value `csvContent` built by `exportTableToCSV`, the table being given by its
rows (the `tr` elements), each row by the `textContent` of its cells (the `td`
and `th` elements). -/
def exportTableToCSV (rows : List (List JSString)) : JSString :=
  join (lit "\n") (rows.map (fun row =>
    join (lit ",") (row.map (fun col => lit "\"" ++ trim col ++ lit "\""))))

/-! ## Time registration -/

/-- The part of the page `registerTime` acts on: the button's inner HTML, its
`disabled` property, the delays of the pending `setTimeout` calls that reload the
page, and the toasts shown (message and type). -/
structure Page where
  label : JSString
  disabled : Bool
  reloadTimers : List Nat
  toasts : List (JSString × JSString)

/-- How the request of `registerTime` ends: a response of the server with its
`success` flag and `message`, or a transport failure. -/
inductive Outcome where
  | response (success : Bool) (message : JSString) : Outcome
  | transportFailure : Outcome

/-- Whether an outcome is a business success: a response with `success` true. -/
def Outcome.isSuccess : Outcome → Bool
  | Outcome.response success _ => success
  | Outcome.transportFailure => false

/-- The function `showNotification(message, type)`, as far as the page state
goes: one more toast. -/
def showNotification (message type : JSString) (p : Page) : Page :=
  { p with toasts := p.toasts ++ [(message, type)] }

/-- The first statements of `registerTime`: the button shows the spinner and is
disabled while the request is in flight. -/
def registerTimeStart (p : Page) : Page :=
  { p with
    label := lit "<span class=\"spinner-border spinner-border-sm me-2\"></span>Registrando...",
    disabled := true }

/-- The `success` callback of the request. -/
def registerTimeSuccess (success : Bool) (message : JSString) (p : Page) : Page :=
  if success then
    let p1 := showNotification message (lit "success") p
    { p1 with reloadTimers := p1.reloadTimers ++ [1500] }
  else showNotification message (lit "error") p

/-- The `error` callback of the request. -/
def registerTimeError (p : Page) : Page :=
  showNotification (lit "Erro ao registrar ponto. Tente novamente.") (lit "error") p

/-- The `complete` callback of the request, `originalText` being the label read
before the request. -/
def registerTimeComplete (originalText : JSString) (p : Page) : Page :=
  { p with label := originalText, disabled := false }

/-- The function `registerTime` run to the end of its request: the label is read,
the button is put in the loading state, then `success` or `error` runs according
to the outcome, and `complete` runs last. -/
def registerTime (o : Outcome) (p : Page) : Page :=
  let originalText := p.label
  let p1 := registerTimeStart p
  let p2 :=
    match o with
    | Outcome.response success message => registerTimeSuccess success message p1
    | Outcome.transportFailure => registerTimeError p1
  registerTimeComplete originalText p2

/-! ## Daily reminders -/

/-- The two desktop reminders of `checkDailyNotifications`. -/
inductive Reminder where
  | morning : Reminder
  | evening : Reminder
  deriving DecidableEq

/-- The function `checkDailyNotifications` at local time `hour:minute`: the
reminders it passes to `showDesktopNotification`, in order. -/
def checkDailyNotifications (hour minute : Nat) : List Reminder :=
  (if hour = 9 ∧ minute = 0 then [Reminder.morning] else []) ++
    (if hour = 17 ∧ minute = 0 then [Reminder.evening] else [])

/-! ## Notification dropdown -/

/-- The message shown by `loadRecentNotifications` for a notification whose
`mensagem` is `message`: `substring(0, 80) + '...'` when the length exceeds 80. -/
def truncateMessage (message : JSString) : JSString :=
  if message.length > 80 then message.take 80 ++ lit "..." else message

/-! ## Lemmas on the CPF validator -/

theorem isDigit_iff (c : Nat) : isDigit c = true ↔ 48 ≤ c ∧ c ≤ 57 := by
  simp [isDigit]

theorem isDigit_of_mem_strip {s : JSString} {c : Nat} (h : c ∈ stripNonDigits s) :
    isDigit c = true := by
  unfold stripNonDigits at h
  exact (List.mem_filter.mp h).2

theorem eleven_of_length {α : Type} (t : List α) (h : t.length = 11) :
    ∃ c1 c2 c3 c4 c5 c6 c7 c8 c9 c10 c11, t = [c1, c2, c3, c4, c5, c6, c7, c8, c9, c10, c11] := by
  match t, h with
  | [c1, c2, c3, c4, c5, c6, c7, c8, c9, c10, c11], _ =>
    exact ⟨c1, c2, c3, c4, c5, c6, c7, c8, c9, c10, c11, rfl⟩

theorem digit_eq_of_sub {x c : Nat} (hx : 48 ≤ x) (hc : 48 ≤ c) (h : x - 48 = c - 48) :
    x = c := by
  omega

theorem eleven_inj {α : Type} {a1 a2 a3 a4 a5 a6 a7 a8 a9 a10 a11 : α}
    {b1 b2 b3 b4 b5 b6 b7 b8 b9 b10 b11 : α}
    (h : [a1, a2, a3, a4, a5, a6, a7, a8, a9, a10, a11] =
      [b1, b2, b3, b4, b5, b6, b7, b8, b9, b10, b11]) :
    a1 = b1 ∧ a2 = b2 ∧ a3 = b3 ∧ a4 = b4 ∧ a5 = b5 ∧ a6 = b6 ∧ a7 = b7 ∧ a8 = b8 ∧
      a9 = b9 ∧ a10 = b10 ∧ a11 = b11 := by
  simpa using h

/-- The validator on a stripped string of eleven digits, the digits given as
numbers `d` (the code units being `48 + d`). -/
theorem validate_eleven (d1 d2 d3 d4 d5 d6 d7 d8 d9 d10 d11 : Nat) (s : JSString)
    (hs : stripNonDigits s =
      [48 + d1, 48 + d2, 48 + d3, 48 + d4, 48 + d5, 48 + d6, 48 + d7, 48 + d8, 48 + d9,
        48 + d10, 48 + d11])
    (h1 : d1 ≤ 9) (h2 : d2 ≤ 9) (h3 : d3 ≤ 9) (h4 : d4 ≤ 9) (h5 : d5 ≤ 9) (h6 : d6 ≤ 9)
    (h7 : d7 ≤ 9) (h8 : d8 ≤ 9) (h9 : d9 ≤ 9) (h10 : d10 ≤ 9) (h11 : d11 ≤ 9) :
    validateCPF s = true ↔
      (¬ (d2 = d1 ∧ d3 = d1 ∧ d4 = d1 ∧ d5 = d1 ∧ d6 = d1 ∧ d7 = d1 ∧ d8 = d1 ∧ d9 = d1 ∧
          d10 = d1 ∧ d11 = d1) ∧
        d10 = specCheckDigit
          (10 * d1 + 9 * d2 + 8 * d3 + 7 * d4 + 6 * d5 + 5 * d6 + 4 * d7 + 3 * d8 + 2 * d9) ∧
        d11 = specCheckDigit
          (11 * d1 + 10 * d2 + 9 * d3 + 8 * d4 + 7 * d5 + 6 * d6 + 5 * d7 + 4 * d8 + 3 * d9
            + 2 * d10)) := by
  have r9 : List.range 9 = [0, 1, 2, 3, 4, 5, 6, 7, 8] := by decide
  have r10 : List.range 10 = [0, 1, 2, 3, 4, 5, 6, 7, 8, 9] := by decide
  have k1 : 48 + d1 ≤ 57 := by omega
  have k2 : 48 + d2 ≤ 57 := by omega
  have k3 : 48 + d3 ≤ 57 := by omega
  have k4 : 48 + d4 ≤ 57 := by omega
  have k5 : 48 + d5 ≤ 57 := by omega
  have k6 : 48 + d6 ≤ 57 := by omega
  have k7 : 48 + d7 ≤ 57 := by omega
  have k8 : 48 + d8 ≤ 57 := by omega
  have k9 : 48 + d9 ≤ 57 := by omega
  have k10 : 48 + d10 ≤ 57 := by omega
  have k11 : 48 + d11 ≤ 57 := by omega
  have e1 : weightedSum (stripNonDigits s) 9 10 = some
      (10 * d1 + 9 * d2 + 8 * d3 + 7 * d4 + 6 * d5 + 5 * d6 + 4 * d7 + 3 * d8 + 2 * d9) := by
    simp [weightedSum, hs, r9, parseIntCharAt, isDigit, k1, k2, k3, k4, k5, k6, k7, k8, k9]
    ring
  have e2 : weightedSum (stripNonDigits s) 10 11 = some
      (11 * d1 + 10 * d2 + 9 * d3 + 8 * d4 + 7 * d5 + 6 * d6 + 5 * d7 + 4 * d8 + 3 * d9
            + 2 * d10) := by
    simp [weightedSum, hs, r10, parseIntCharAt, isDigit, k1, k2, k3, k4, k5, k6, k7, k8, k9, k10]
    ring
  have p9 : parseIntCharAt (stripNonDigits s) 9 = some d10 := by
    simp [hs, parseIntCharAt, isDigit, k10]
  have p10 : parseIntCharAt (stripNonDigits s) 10 = some d11 := by
    simp [hs, parseIntCharAt, isDigit, k11]
  have hc : ∀ x, checkRemainder x = specCheckDigit x := by
    intro x
    unfold checkRemainder specCheckDigit
    have : x * 10 % 11 < 11 := Nat.mod_lt _ (by norm_num)
    by_cases h : x * 10 % 11 = 10
    · simp [h]
    · have h' : ¬ (x * 10 % 11 = 10 ∨ x * 10 % 11 = 11) := by omega
      rw [if_neg h', if_neg h]
  have ha : allSameDigit (stripNonDigits s) = true ↔
      (d2 = d1 ∧ d3 = d1 ∧ d4 = d1 ∧ d5 = d1 ∧ d6 = d1 ∧ d7 = d1 ∧ d8 = d1 ∧ d9 = d1 ∧
          d10 = d1 ∧ d11 = d1) := by
    simp [hs, allSameDigit, isDigit, k1]
  have hlen : (stripNonDigits s).length = 11 := by simp [hs]
  unfold validateCPF
  simp only [e1, e2, p9, p10, remainderDiffers, hc, hlen]
  generalize specCheckDigit
    (10 * d1 + 9 * d2 + 8 * d3 + 7 * d4 + 6 * d5 + 5 * d6 + 4 * d7 + 3 * d8 + 2 * d9) = a
  generalize specCheckDigit
    (11 * d1 + 10 * d2 + 9 * d3 + 8 * d4 + 7 * d5 + 6 * d6 + 5 * d7 + 4 * d8 + 3 * d9
            + 2 * d10) = b
  rw [← ha]
  cases allSameDigit (stripNonDigits s)
  · by_cases hA : a = d10
    · by_cases hB : b = d11
      · simp [hA, hB]
      · have hB' : ¬ d11 = b := fun h => hB h.symm
        simp [hA, hB, hB']
    · have hA' : ¬ d10 = a := fun h => hA h.symm
      simp [hA, hA']
  · simp

/-- The validator decided on the digits of the input. -/
theorem validateCPF_iff_digits (s : JSString) :
    validateCPF s = true ↔
      ∃ d1 d2 d3 d4 d5 d6 d7 d8 d9 d10 d11 : Nat,
        digitsOf s = [d1, d2, d3, d4, d5, d6, d7, d8, d9, d10, d11] ∧
        ¬ (d2 = d1 ∧ d3 = d1 ∧ d4 = d1 ∧ d5 = d1 ∧ d6 = d1 ∧ d7 = d1 ∧ d8 = d1 ∧ d9 = d1 ∧
            d10 = d1 ∧ d11 = d1) ∧
        d10 = specCheckDigit
          (10 * d1 + 9 * d2 + 8 * d3 + 7 * d4 + 6 * d5 + 5 * d6 + 4 * d7 + 3 * d8 + 2 * d9) ∧
        d11 = specCheckDigit
          (11 * d1 + 10 * d2 + 9 * d3 + 8 * d4 + 7 * d5 + 6 * d6 + 5 * d7 + 4 * d8 + 3 * d9
            + 2 * d10) := by
  by_cases hl : (stripNonDigits s).length = 11
  · obtain ⟨c1, c2, c3, c4, c5, c6, c7, c8, c9, c10, c11, ht⟩ := eleven_of_length _ hl
    have hd : ∀ c ∈ [c1, c2, c3, c4, c5, c6, c7, c8, c9, c10, c11], 48 ≤ c ∧ c ≤ 57 := by
      intro c hc
      rw [← ht] at hc
      exact (isDigit_iff c).mp (isDigit_of_mem_strip hc)
    have g1 := hd c1 (by simp)
    have g2 := hd c2 (by simp)
    have g3 := hd c3 (by simp)
    have g4 := hd c4 (by simp)
    have g5 := hd c5 (by simp)
    have g6 := hd c6 (by simp)
    have g7 := hd c7 (by simp)
    have g8 := hd c8 (by simp)
    have g9 := hd c9 (by simp)
    have g10 := hd c10 (by simp)
    have g11 := hd c11 (by simp)
    have hs : stripNonDigits s =
        [48 + (c1 - 48), 48 + (c2 - 48), 48 + (c3 - 48), 48 + (c4 - 48), 48 + (c5 - 48),
          48 + (c6 - 48), 48 + (c7 - 48), 48 + (c8 - 48), 48 + (c9 - 48), 48 + (c10 - 48),
          48 + (c11 - 48)] := by
      rw [ht]
      simp only [List.cons.injEq, and_true]
      omega
    have key := validate_eleven (c1 - 48) (c2 - 48) (c3 - 48) (c4 - 48) (c5 - 48) (c6 - 48)
      (c7 - 48) (c8 - 48) (c9 - 48) (c10 - 48) (c11 - 48) s hs (by omega) (by omega) (by omega)
      (by omega) (by omega) (by omega) (by omega) (by omega) (by omega) (by omega) (by omega)
    have hdig : digitsOf s = [c1 - 48, c2 - 48, c3 - 48, c4 - 48, c5 - 48, c6 - 48, c7 - 48,
        c8 - 48, c9 - 48, c10 - 48, c11 - 48] := by
      simp [digitsOf, ht]
    rw [key, hdig]
    constructor
    · intro h
      exact ⟨_, _, _, _, _, _, _, _, _, _, _, rfl, h⟩
    · rintro ⟨d1, d2, d3, d4, d5, d6, d7, d8, d9, d10, d11, he, h⟩
      simp only [List.cons.injEq, and_true] at he
      obtain ⟨rfl, rfl, rfl, rfl, rfl, rfl, rfl, rfl, rfl, rfl, rfl⟩ := he
      exact h
  · have hf : validateCPF s = false := by
      simp [validateCPF, hl]
    rw [hf]
    constructor
    · intro h
      exact absurd h (by simp)
    · rintro ⟨d1, d2, d3, d4, d5, d6, d7, d8, d9, d10, d11, he, _⟩
      exfalso
      apply hl
      have := congrArg List.length he
      simpa [digitsOf] using this

/-- The code's remainder rule and the specification's wording of it agree. -/
theorem checkRemainder_eq_spec (x : Nat) : checkRemainder x = specCheckDigit x := by
  unfold checkRemainder specCheckDigit
  have : x * 10 % 11 < 11 := Nat.mod_lt _ (by norm_num)
  by_cases h : x * 10 % 11 = 10
  · simp [h]
  · have h' : ¬ (x * 10 % 11 = 10 ∨ x * 10 % 11 = 11) := by omega
    rw [if_neg h', if_neg h]

/-- The specification's remainder rule and the standard rule agree on every sum. -/
theorem specCheckDigit_eq_std (x : Nat) : specCheckDigit x = stdCheckDigit x := by
  unfold specCheckDigit stdCheckDigit
  have h1 : x * 10 % 11 = x % 11 * 10 % 11 := by omega
  have h2 : x % 11 < 11 := Nat.mod_lt _ (by norm_num)
  rw [h1]
  generalize x % 11 = r at h2
  interval_cases r <;> decide

/-- Claim C1: `validateCPF(s)` is true exactly when the digits of `s` (every
non-digit removed) are eleven, not all identical, and the tenth and eleventh
digits equal `((10*d1 + ... + 2*d9) * 10) mod 11` and
`((11*d1 + ... + 2*d10) * 10) mod 11`, 10 being replaced by 0; in particular it
is false when the number of digits is not 11 and when the eleven digits are all
the same. -/
theorem validateCPF_spec (s : JSString) :
    (validateCPF s = true ↔
      ∃ d1 d2 d3 d4 d5 d6 d7 d8 d9 d10 d11 : Nat,
        digitsOf s = [d1, d2, d3, d4, d5, d6, d7, d8, d9, d10, d11] ∧
        ¬ (d2 = d1 ∧ d3 = d1 ∧ d4 = d1 ∧ d5 = d1 ∧ d6 = d1 ∧ d7 = d1 ∧ d8 = d1 ∧ d9 = d1 ∧
            d10 = d1 ∧ d11 = d1) ∧
        d10 = specCheckDigit
          (10 * d1 + 9 * d2 + 8 * d3 + 7 * d4 + 6 * d5 + 5 * d6 + 4 * d7 + 3 * d8 + 2 * d9) ∧
        d11 = specCheckDigit
          (11 * d1 + 10 * d2 + 9 * d3 + 8 * d4 + 7 * d5 + 6 * d6 + 5 * d7 + 4 * d8 + 3 * d9
            + 2 * d10)) ∧
    ((digitsOf s).length ≠ 11 → validateCPF s = false) ∧
    (∀ d, digitsOf s = List.replicate 11 d → validateCPF s = false) := by
  refine ⟨validateCPF_iff_digits s, ?_, ?_⟩
  · intro hl
    rw [← Bool.not_eq_true, validateCPF_iff_digits]
    rintro ⟨d1, d2, d3, d4, d5, d6, d7, d8, d9, d10, d11, he, _⟩
    exact hl (by rw [he]; rfl)
  · intro d hd
    rw [← Bool.not_eq_true, validateCPF_iff_digits]
    rintro ⟨d1, d2, d3, d4, d5, d6, d7, d8, d9, d10, d11, he, hne, _⟩
    rw [hd] at he
    simp only [List.replicate, List.cons.injEq, and_true] at he
    obtain ⟨rfl, rfl, rfl, rfl, rfl, rfl, rfl, rfl, rfl, rfl, rfl⟩ := he
    exact hne ⟨rfl, rfl, rfl, rfl, rfl, rfl, rfl, rfl, rfl, rfl⟩

/-- Witness of C1 at `529.982.247-25` (accepted), `123` (three digits) and
`111.111.111-11` (one digit repeated). -/
theorem validateCPF_spec_witness :
    validateCPF (lit "529.982.247-25") = true ∧ validateCPF (lit "123") = false ∧
      validateCPF (lit "111.111.111-11") = false :=
  ⟨(validateCPF_spec (lit "529.982.247-25")).1.2
      ⟨5, 2, 9, 9, 8, 2, 2, 4, 7, 2, 5, by decide, by decide, by decide, by decide⟩,
    (validateCPF_spec (lit "123")).2.1 (by decide),
    (validateCPF_spec (lit "111.111.111-11")).2.2 1 (by decide)⟩

theorem stripNonDigits_of_all_digits (c : JSString) (h : ∀ x ∈ c, isDigit x = true) :
    stripNonDigits c = c := by
  unfold stripNonDigits
  exact List.filter_eq_self.mpr h

theorem stdValidCPF_iff (l : List Nat) :
    stdValidCPF l = true ↔
      ∃ d1 d2 d3 d4 d5 d6 d7 d8 d9 d10 d11 : Nat,
        l = [d1, d2, d3, d4, d5, d6, d7, d8, d9, d10, d11] ∧
        ¬ (d2 = d1 ∧ d3 = d1 ∧ d4 = d1 ∧ d5 = d1 ∧ d6 = d1 ∧ d7 = d1 ∧ d8 = d1 ∧ d9 = d1 ∧
            d10 = d1 ∧ d11 = d1) ∧
        d10 = stdCheckDigit
          (10 * d1 + 9 * d2 + 8 * d3 + 7 * d4 + 6 * d5 + 5 * d6 + 4 * d7 + 3 * d8 + 2 * d9) ∧
        d11 = stdCheckDigit
          (11 * d1 + 10 * d2 + 9 * d3 + 8 * d4 + 7 * d5 + 6 * d6 + 5 * d7 + 4 * d8 + 3 * d9
            + 2 * d10) := by
  unfold stdValidCPF
  split
  · rename_i d1 d2 d3 d4 d5 d6 d7 d8 d9 d10 d11
    constructor
    · intro h
      simp only [Bool.and_eq_true, Bool.not_eq_true', beq_iff_eq, ← Bool.not_eq_true] at h
      exact ⟨_, _, _, _, _, _, _, _, _, _, _, rfl, by tauto, h.1.2, h.2⟩
    · rintro ⟨e1, e2, e3, e4, e5, e6, e7, e8, e9, e10, e11, he, hne, ha, hb⟩
      simp only [List.cons.injEq, and_true] at he
      obtain ⟨rfl, rfl, rfl, rfl, rfl, rfl, rfl, rfl, rfl, rfl, rfl⟩ := he
      simp only [Bool.and_eq_true, Bool.not_eq_true', beq_iff_eq, ← Bool.not_eq_true]
      exact ⟨⟨by tauto, ha⟩, hb⟩
  · rename_i hno
    constructor
    · intro h
      exact absurd h (by simp)
    · rintro ⟨d1, d2, d3, d4, d5, d6, d7, d8, d9, d10, d11, he, _⟩
      exact absurd he (hno d1 d2 d3 d4 d5 d6 d7 d8 d9 d10 d11)

/-- Claim C2: for an 11-digit string that `validateCPF` accepts, replacing the
tenth digit (first check digit) by a different digit, or the eleventh digit
(second check digit) by a different digit, gives a string that `validateCPF`
rejects. -/
theorem validateCPF_check_digit_flip (c : JSString) (hlen : c.length = 11)
    (hdig : ∀ x ∈ c, isDigit x = true) (hv : validateCPF c = true)
    (x : Nat) (hx : isDigit x = true) :
    (c.get? 9 ≠ some x → validateCPF (c.set 9 x) = false) ∧
      (c.get? 10 ≠ some x → validateCPF (c.set 10 x) = false) := by
  obtain ⟨c1, c2, c3, c4, c5, c6, c7, c8, c9, c10, c11, rfl⟩ := eleven_of_length c hlen
  have g10 := (isDigit_iff c10).mp (hdig c10 (by simp))
  have g11 := (isDigit_iff c11).mp (hdig c11 (by simp))
  have gx := (isDigit_iff x).mp hx
  rw [validateCPF_iff_digits] at hv
  obtain ⟨d1, d2, d3, d4, d5, d6, d7, d8, d9, d10, d11, he, _, ha, hb⟩ := hv
  have hdo0 : digitsOf [c1, c2, c3, c4, c5, c6, c7, c8, c9, c10, c11] =
      [c1 - 48, c2 - 48, c3 - 48, c4 - 48, c5 - 48, c6 - 48, c7 - 48, c8 - 48, c9 - 48,
        c10 - 48, c11 - 48] := by
    rw [digitsOf, stripNonDigits_of_all_digits _ hdig]
    rfl
  rw [hdo0] at he
  obtain ⟨rfl, rfl, rfl, rfl, rfl, rfl, rfl, rfl, rfl, rfl, rfl⟩ := eleven_inj he
  constructor
  · intro hne
    have hxc : x ≠ c10 := by
      intro h
      apply hne
      simp [h]
    have hdig' : ∀ y ∈ [c1, c2, c3, c4, c5, c6, c7, c8, c9, x, c11], isDigit y = true := by
      intro y hy
      simp only [List.mem_cons, List.mem_singleton, List.not_mem_nil, or_false] at hy
      rcases hy with h | h | h | h | h | h | h | h | h | h | h
      all_goals first
        | (subst h; exact hx)
        | (subst h; exact hdig _ (by simp))
    have hset : List.set [c1, c2, c3, c4, c5, c6, c7, c8, c9, c10, c11] 9 x =
        [c1, c2, c3, c4, c5, c6, c7, c8, c9, x, c11] := rfl
    have hdo : digitsOf [c1, c2, c3, c4, c5, c6, c7, c8, c9, x, c11] =
        [c1 - 48, c2 - 48, c3 - 48, c4 - 48, c5 - 48, c6 - 48, c7 - 48, c8 - 48, c9 - 48,
          x - 48, c11 - 48] := by
      rw [digitsOf, stripNonDigits_of_all_digits _ hdig']
      rfl
    rw [hset, ← Bool.not_eq_true, validateCPF_iff_digits, hdo]
    rintro ⟨e1, e2, e3, e4, e5, e6, e7, e8, e9, e10, e11, he, _, ha', _⟩
    obtain ⟨rfl, rfl, rfl, rfl, rfl, rfl, rfl, rfl, rfl, rfl, rfl⟩ := eleven_inj he
    exact hxc (digit_eq_of_sub gx.1 g10.1 (ha'.trans ha.symm))
  · intro hne
    have hxc : x ≠ c11 := by
      intro h
      apply hne
      simp [h]
    have hdig' : ∀ y ∈ [c1, c2, c3, c4, c5, c6, c7, c8, c9, c10, x], isDigit y = true := by
      intro y hy
      simp only [List.mem_cons, List.mem_singleton, List.not_mem_nil, or_false] at hy
      rcases hy with h | h | h | h | h | h | h | h | h | h | h
      all_goals first
        | (subst h; exact hx)
        | (subst h; exact hdig _ (by simp))
    have hset : List.set [c1, c2, c3, c4, c5, c6, c7, c8, c9, c10, c11] 10 x =
        [c1, c2, c3, c4, c5, c6, c7, c8, c9, c10, x] := rfl
    have hdo : digitsOf [c1, c2, c3, c4, c5, c6, c7, c8, c9, c10, x] =
        [c1 - 48, c2 - 48, c3 - 48, c4 - 48, c5 - 48, c6 - 48, c7 - 48, c8 - 48, c9 - 48,
          c10 - 48, x - 48] := by
      rw [digitsOf, stripNonDigits_of_all_digits _ hdig']
      rfl
    rw [hset, ← Bool.not_eq_true, validateCPF_iff_digits, hdo]
    rintro ⟨e1, e2, e3, e4, e5, e6, e7, e8, e9, e10, e11, he, _, _, hb'⟩
    obtain ⟨rfl, rfl, rfl, rfl, rfl, rfl, rfl, rfl, rfl, rfl, rfl⟩ := eleven_inj he
    exact hxc (digit_eq_of_sub gx.1 g11.1 (hb'.trans hb.symm))

/-- Witness of C2 at the valid CPF `52998224725`, each check digit replaced by
`3`. -/
theorem validateCPF_check_digit_flip_witness :
    validateCPF (lit "52998224725") = true ∧
      validateCPF ((lit "52998224725").set 9 51) = false ∧
      validateCPF ((lit "52998224725").set 10 51) = false :=
  ⟨by decide,
    (validateCPF_check_digit_flip (lit "52998224725") (by decide) (by decide) (by decide)
      51 (by decide)).1 (by decide),
    (validateCPF_check_digit_flip (lit "52998224725") (by decide) (by decide) (by decide)
      51 (by decide)).2 (by decide)⟩

/-- Claim C3: `validateCPF` accepts exactly the strings whose digits satisfy the
standard Brazilian rule (check digit 0 when the weighted sum modulo 11 is less
than 2, otherwise 11 minus it), punctuation being ignored; the code's
`(sum * 10) mod 11, 10 -> 0` formula and the standard formula agree on every
sum; `529.982.247-25` and `52998224725` are accepted. -/
theorem validateCPF_eq_standard :
    (∀ s : JSString, validateCPF s = stdValidCPF (digitsOf s)) ∧
      (∀ sum : Nat, checkRemainder sum = stdCheckDigit sum) ∧
      validateCPF (lit "529.982.247-25") = true ∧ validateCPF (lit "52998224725") = true := by
  refine ⟨?_, ?_, by decide, by decide⟩
  · intro s
    have hfun : specCheckDigit = stdCheckDigit := funext specCheckDigit_eq_std
    rw [Bool.eq_iff_iff, validateCPF_iff_digits, stdValidCPF_iff, hfun]
  · intro sum
    rw [checkRemainder_eq_spec, specCheckDigit_eq_std]

/-! ## Lemmas on the masks -/

theorem startsWithDigits_false_of_short (n : Nat) (s : JSString) (h : s.length < n) :
    startsWithDigits n s = false := by
  induction s generalizing n with
  | nil =>
    cases n with
    | zero => omega
    | succ n => rfl
  | cons c s ih =>
    cases n with
    | zero => omega
    | succ n =>
      simp only [List.length_cons] at h
      simp [startsWithDigits, ih n (by omega)]

theorem replaceFirstDigits_short (n : Nat) (fmt : JSString → JSString) (s : JSString)
    (h : s.length < n) : replaceFirstDigits n fmt s = s := by
  induction s with
  | nil => simp [replaceFirstDigits, startsWithDigits_false_of_short n [] h]
  | cons c s ih =>
    have hs : s.length < n := by
      simp only [List.length_cons] at h
      omega
    simp [replaceFirstDigits, startsWithDigits_false_of_short n (c :: s) h, ih hs]

theorem startsWithDigits_of_all (s : JSString) (h : ∀ x ∈ s, isDigit x = true) :
    startsWithDigits s.length s = true := by
  induction s with
  | nil => rfl
  | cons c s ih =>
    simp only [List.length_cons, startsWithDigits, Bool.and_eq_true]
    exact ⟨h c (by simp), ih (fun x hx => h x (by simp [hx]))⟩

theorem replaceFirstDigits_exact (fmt : JSString → JSString) (s : JSString)
    (h : ∀ x ∈ s, isDigit x = true) : replaceFirstDigits s.length fmt s = fmt s := by
  cases s with
  | nil => simp [replaceFirstDigits, startsWithDigits]
  | cons c s =>
    have := startsWithDigits_of_all (c :: s) h
    rw [replaceFirstDigits, if_pos this]
    simp

/-- Claim C4: with `d` the field's text stripped of non-digits, the CPF mask gives
`d1d2d3.d4d5d6.d7d8d9-d10d11` when `d` has eleven digits, `d` itself when `d`
has fewer than eleven digits, and leaves the text as it was when `d` has more
than eleven digits; `12345678901` becomes `123.456.789-01`. -/
theorem cpfMask_spec (text : JSString) :
    (∀ d1 d2 d3 d4 d5 d6 d7 d8 d9 d10 d11 : Nat,
      stripNonDigits text = [d1, d2, d3, d4, d5, d6, d7, d8, d9, d10, d11] →
      cpfMask text = [d1, d2, d3, 46, d4, d5, d6, 46, d7, d8, d9, 45, d10, d11]) ∧
    ((stripNonDigits text).length < 11 → cpfMask text = stripNonDigits text) ∧
    ((stripNonDigits text).length > 11 → cpfMask text = text) ∧
    cpfMask (lit "12345678901") = lit "123.456.789-01" := by
  refine ⟨?_, ?_, ?_, by decide⟩
  · intro d1 d2 d3 d4 d5 d6 d7 d8 d9 d10 d11 hd
    have hall : ∀ x ∈ stripNonDigits text, isDigit x = true := fun x hx =>
      isDigit_of_mem_strip hx
    have hlen : (stripNonDigits text).length = 11 := by rw [hd]; rfl
    have h := replaceFirstDigits_exact cpfFormat (stripNonDigits text) hall
    rw [hlen] at h
    unfold cpfMask
    simp only [hlen, le_refl, if_true, h]
    rw [hd]
    rfl
  · intro hlt
    unfold cpfMask
    simp only [Nat.le_of_lt hlt, if_true]
    exact replaceFirstDigits_short 11 cpfFormat _ hlt
  · intro hgt
    unfold cpfMask
    simp only [Nat.not_le.mpr hgt, if_false]

/-- Witness of C4 at `529.982.247-25` (eleven digits), `12-3` (three digits) and
`123456789012` (twelve digits). -/
theorem cpfMask_spec_witness :
    cpfMask (lit "529.982.247-25") = lit "529.982.247-25" ∧ cpfMask (lit "12-3") = lit "123" ∧
      cpfMask (lit "123456789012") = lit "123456789012" :=
  ⟨(cpfMask_spec (lit "529.982.247-25")).1 53 50 57 57 56 50 50 52 55 50 53 (by decide),
    (cpfMask_spec (lit "12-3")).2.1 (by decide),
    (cpfMask_spec (lit "123456789012")).2.2.1 (by decide)⟩

/-- Counterexample to C5 as stated: the text `123` has three digits (at most
ten), and the phone mask leaves it as `123`, which is not of the form
`(NN) NNNN-NNNN`. -/
theorem phoneMask_short_not_formatted :
    (stripNonDigits (lit "123")).length ≤ 10 ∧ phoneMask (lit "123") = lit "123" ∧
      isPhoneForm10 (phoneMask (lit "123")) = false := by
  decide

/-- Claim C5, amended: with `d` the field's text stripped of non-digits, the
phone mask gives `(d1d2) d3d4d5d6-d7d8d9d10` when `d` has exactly ten digits,
`d` itself when `d` has fewer than ten digits, and
`(d1d2) d3d4d5d6d7-d8d9d10d11` when `d` has exactly eleven digits;
`1134567890` becomes `(11) 3456-7890` and `11987654321` becomes
`(11) 98765-4321`. -/
theorem phoneMask_spec (text : JSString) :
    (∀ d1 d2 d3 d4 d5 d6 d7 d8 d9 d10 : Nat,
      stripNonDigits text = [d1, d2, d3, d4, d5, d6, d7, d8, d9, d10] →
      phoneMask text = [40, d1, d2, 41, 32, d3, d4, d5, d6, 45, d7, d8, d9, d10] ∧
        isPhoneForm10 (phoneMask text) = true) ∧
    ((stripNonDigits text).length < 10 → phoneMask text = stripNonDigits text) ∧
    (∀ d1 d2 d3 d4 d5 d6 d7 d8 d9 d10 d11 : Nat,
      stripNonDigits text = [d1, d2, d3, d4, d5, d6, d7, d8, d9, d10, d11] →
      phoneMask text = [40, d1, d2, 41, 32, d3, d4, d5, d6, d7, 45, d8, d9, d10, d11]) ∧
    phoneMask (lit "1134567890") = lit "(11) 3456-7890" ∧
    phoneMask (lit "11987654321") = lit "(11) 98765-4321" := by
  have hall : ∀ x ∈ stripNonDigits text, isDigit x = true := fun x hx =>
    isDigit_of_mem_strip hx
  refine ⟨?_, ?_, ?_, by decide, by decide⟩
  · intro d1 d2 d3 d4 d5 d6 d7 d8 d9 d10 hd
    have hlen : (stripNonDigits text).length = 10 := by rw [hd]; rfl
    have h := replaceFirstDigits_exact phoneFormat10 (stripNonDigits text) hall
    rw [hlen] at h
    have hm : phoneMask text = [40, d1, d2, 41, 32, d3, d4, d5, d6, 45, d7, d8, d9, d10] := by
      unfold phoneMask
      simp only [hlen, Nat.le_succ, le_refl, if_true, h]
      rw [hd]
      rfl
    refine ⟨hm, ?_⟩
    rw [hd] at hall
    rw [hm]
    simp [isPhoneForm10, hall]
  · intro hlt
    unfold phoneMask
    have h11 : (stripNonDigits text).length ≤ 11 := by omega
    have h10 : (stripNonDigits text).length ≤ 10 := by omega
    simp only [h11, h10, if_true]
    exact replaceFirstDigits_short 10 phoneFormat10 _ hlt
  · intro d1 d2 d3 d4 d5 d6 d7 d8 d9 d10 d11 hd
    have hlen : (stripNonDigits text).length = 11 := by rw [hd]; rfl
    have h := replaceFirstDigits_exact phoneFormat11 (stripNonDigits text) hall
    rw [hlen] at h
    unfold phoneMask
    have h10 : ¬ (11 ≤ 10) := by decide
    simp only [hlen, le_refl, if_true, h10, if_false, h]
    rw [hd]
    rfl

/-- Witness of the amended C5 at `(11) 3456-7890` (ten digits), `12-3` (three
digits) and `(11) 98765-4321` (eleven digits). -/
theorem phoneMask_spec_witness :
    phoneMask (lit "(11) 3456-7890") = lit "(11) 3456-7890" ∧
      phoneMask (lit "12-3") = lit "123" ∧
      phoneMask (lit "(11) 98765-4321") = lit "(11) 98765-4321" :=
  ⟨((phoneMask_spec (lit "(11) 3456-7890")).1 49 49 51 52 53 54 55 56 57 48 (by decide)).1,
    (phoneMask_spec (lit "12-3")).2.1 (by decide),
    (phoneMask_spec (lit "(11) 98765-4321")).2.2.1 49 49 57 56 55 54 53 52 51 50 49
      (by decide)⟩

/-! ## Lemmas on regular expressions -/

namespace Regex

theorem nullable_iff (r : Regex) : nullable r = true ↔ Lang r [] := by
  induction r with
  | empty => simp [nullable, Lang]
  | eps => simp [nullable, Lang]
  | cls p => simp [nullable, Lang]
  | alt r q ihr ihq => simp [nullable, Lang, ihr, ihq]
  | seq r q ihr ihq =>
    simp only [nullable, Lang, Bool.and_eq_true, ihr, ihq]
    constructor
    · rintro ⟨h1, h2⟩
      exact ⟨[], [], rfl, h1, h2⟩
    · rintro ⟨a, b, hab, h1, h2⟩
      have := List.append_eq_nil.mp hab.symm
      rw [this.1] at h1
      rw [this.2] at h2
      exact ⟨h1, h2⟩
  | star r _ =>
    simp only [nullable, Lang, true_iff]
    exact ⟨[], rfl, by simp⟩

theorem lang_star_cons (r : Regex) (c : Nat) (s : JSString) :
    Lang (star r) (c :: s) ↔ ∃ a b, s = a ++ b ∧ Lang r (c :: a) ∧ Lang (star r) b := by
  constructor
  · rintro ⟨parts, hs, hp⟩
    cases parts with
    | nil => simp at hs
    | cons p rest =>
      have hp1 := hp p (by simp)
      cases p with
      | nil => exact absurd rfl hp1.1
      | cons x a =>
        simp only [List.flatten_cons, List.cons_append, List.cons.injEq] at hs
        obtain ⟨rfl, rfl⟩ := hs
        exact ⟨a, rest.flatten, rfl, hp1.2, rest, rfl, fun q hq => hp q (by simp [hq])⟩
  · rintro ⟨a, b, rfl, h1, parts, rfl, hp⟩
    refine ⟨(c :: a) :: parts, by simp, ?_⟩
    intro q hq
    rcases List.mem_cons.mp hq with h | h
    · subst h
      exact ⟨by simp, h1⟩
    · exact hp q h

theorem deriv_iff (c : Nat) (r : Regex) (s : JSString) :
    Lang (deriv c r) s ↔ Lang r (c :: s) := by
  induction r generalizing s with
  | empty => simp [deriv, Lang]
  | eps => simp [deriv, Lang]
  | cls p =>
    by_cases h : p c = true
    · simp only [deriv, h, if_true, Lang]
      constructor
      · rintro rfl
        exact ⟨c, rfl, h⟩
      · rintro ⟨x, hx, _⟩
        simp only [List.cons.injEq] at hx
        exact hx.2
    · simp only [deriv, h, Lang, false_iff]
      rintro ⟨x, hx, hpx⟩
      simp only [List.cons.injEq] at hx
      rw [← hx.1] at hpx
      exact h hpx
  | alt r q ihr ihq => simp [deriv, Lang, ihr, ihq]
  | seq r q ihr ihq =>
    have key : Lang (seq r q) (c :: s) ↔
        (∃ a b, s = a ++ b ∧ Lang r (c :: a) ∧ Lang q b) ∨ (Lang r [] ∧ Lang q (c :: s)) := by
      constructor
      · rintro ⟨a, b, hab, h1, h2⟩
        cases a with
        | nil =>
          simp only [List.nil_append] at hab
          subst hab
          exact Or.inr ⟨h1, h2⟩
        | cons x a =>
          simp only [List.cons_append, List.cons.injEq] at hab
          obtain ⟨rfl, rfl⟩ := hab
          exact Or.inl ⟨a, b, rfl, h1, h2⟩
      · rintro (⟨a, b, rfl, h1, h2⟩ | ⟨h1, h2⟩)
        · exact ⟨c :: a, b, rfl, h1, h2⟩
        · exact ⟨[], c :: s, rfl, h1, h2⟩
    rw [key]
    by_cases hn : nullable r = true
    · have hn' := (nullable_iff r).mp hn
      simp only [deriv, hn, if_true, Lang, ihr, ihq]
      constructor
      · rintro (h | h)
        · exact Or.inl h
        · exact Or.inr ⟨hn', h⟩
      · rintro (h | h)
        · exact Or.inl h
        · exact Or.inr h.2
    · have hn' : ¬ Lang r [] := fun h => hn ((nullable_iff r).mpr h)
      simp only [deriv, hn, Lang, ihr]
      constructor
      · intro h
        exact Or.inl h
      · rintro (h | h)
        · exact h
        · exact absurd h.1 hn'
  | star r ih =>
    rw [lang_star_cons]
    simp only [deriv, Lang, ih]

theorem test_iff (r : Regex) (s : JSString) : test r s = true ↔ Lang r s := by
  unfold test
  induction s generalizing r with
  | nil => exact nullable_iff r
  | cons c s ih =>
    simp only [List.foldl_cons]
    rw [ih, deriv_iff]

theorem lang_plus_cls (p : Nat → Bool) (s : JSString) :
    Lang (plus (cls p)) s ↔ s ≠ [] ∧ ∀ x ∈ s, p x = true := by
  constructor
  · rintro ⟨a, b, rfl, ⟨c, rfl, hc⟩, parts, rfl, hp⟩
    refine ⟨by simp, ?_⟩
    intro x hx
    simp only [List.singleton_append, List.mem_cons, List.mem_flatten] at hx
    rcases hx with rfl | ⟨q, hq, hxq⟩
    · exact hc
    · obtain ⟨_, y, rfl, hy⟩ := hp q hq
      simp only [List.mem_singleton] at hxq
      rw [hxq]
      exact hy
  · rintro ⟨hne, hall⟩
    cases s with
    | nil => exact absurd rfl hne
    | cons c s =>
      refine ⟨[c], s, rfl, ⟨c, rfl, hall c (by simp)⟩, s.map (fun x => [x]), ?_, ?_⟩
      · clear hne hall
        induction s with
        | nil => rfl
        | cons x s ih => simp [← ih]
      · intro q hq
        simp only [List.mem_map] at hq
        obtain ⟨x, hx, rfl⟩ := hq
        exact ⟨by simp, x, rfl, hall x (by simp [hx])⟩

end Regex

theorem emailRegex_lang (v : JSString) : Regex.Lang emailRegex v ↔ EmailShape notSpaceAt v := by
  unfold emailRegex EmailShape
  constructor
  · rintro ⟨a, r1, rfl, ha, x, r2, rfl, ⟨c1, rfl, hc1⟩, b, r3, rfl, hb, y, c, rfl,
      ⟨c2, rfl, hc2⟩, hc⟩
    rw [Regex.lang_plus_cls] at ha hb hc
    simp only [beq_iff_eq] at hc1 hc2
    subst hc1 hc2
    exact ⟨a, b, c, by simp, ha.1, ha.2, hb.1, hb.2, hc.1, hc.2⟩
  · rintro ⟨a, b, c, rfl, ha1, ha2, hb1, hb2, hc1, hc2⟩
    refine ⟨a, [64] ++ (b ++ ([46] ++ c)), by simp, (Regex.lang_plus_cls _ _).mpr ⟨ha1, ha2⟩,
      [64], b ++ ([46] ++ c), rfl, ⟨64, rfl, by simp⟩, b, [46] ++ c, rfl,
      (Regex.lang_plus_cls _ _).mpr ⟨hb1, hb2⟩, [46], c, rfl, ⟨46, rfl, by simp⟩,
      (Regex.lang_plus_cls _ _).mpr ⟨hc1, hc2⟩⟩

/-! ## CSV export, e-mail check, time registration, reminders, truncation -/

theorem join_eq_intercalate (sep : JSString) (l : List JSString) :
    join sep l = List.intercalate sep l := by
  induction l with
  | nil => rfl
  | cons x l ih =>
    cases l with
    | nil => simp [join, List.intercalate]
    | cons y rest =>
      rw [join, ih]
      simp [List.intercalate, List.intersperse]

theorem join_append_singleton (sep : JSString) (l : List JSString) (x : JSString)
    (h : l ≠ []) : join sep (l ++ [x]) = join sep l ++ sep ++ x := by
  induction l with
  | nil => exact absurd rfl h
  | cons y l ih =>
    cases l with
    | nil => simp [join]
    | cons z rest =>
      have := ih (by simp)
      simp only [List.cons_append] at this ⊢
      rw [join, this, join]
      simp

theorem trim_decompose (s : JSString) :
    ∃ pre post : JSString, s = pre ++ trim s ++ post ∧
      (∀ x ∈ pre, isSpace x = true) ∧ (∀ x ∈ post, isSpace x = true) := by
  refine ⟨s.takeWhile isSpace, (((s.dropWhile isSpace).reverse).takeWhile isSpace).reverse,
    ?_, ?_, ?_⟩
  · have h1 := List.takeWhile_append_dropWhile isSpace s
    have h2 := List.takeWhile_append_dropWhile isSpace (s.dropWhile isSpace).reverse
    have h3 := congrArg List.reverse h2
    simp only [List.reverse_append, List.reverse_reverse] at h3
    unfold trim
    rw [List.append_assoc, h3, h1]
  · intro x hx
    exact (List.mem_takeWhile_imp hx)
  · intro x hx
    exact (List.mem_takeWhile_imp (List.mem_reverse.mp hx))

theorem dropWhile_head (p : Nat → Bool) (s : JSString) (x : Nat)
    (h : (s.dropWhile p).head? = some x) : p x = false := by
  induction s with
  | nil => simp at h
  | cons c s ih =>
    by_cases hc : p c = true
    · rw [List.dropWhile_cons_of_pos hc] at h
      exact ih h
    · rw [List.dropWhile_cons_of_neg hc] at h
      simp only [List.head?_cons, Option.some.injEq] at h
      subst h
      simpa using hc

theorem trim_ends (s : JSString) (x : Nat) :
    ((trim s).head? = some x → isSpace x = false) ∧
      ((trim s).getLast? = some x → isSpace x = false) := by
  constructor
  · intro h
    obtain ⟨pre, post, hs, hpre, hpost⟩ := trim_decompose s
    have h2 := List.takeWhile_append_dropWhile isSpace (s.dropWhile isSpace).reverse
    have h3 := congrArg List.reverse h2
    simp only [List.reverse_append, List.reverse_reverse] at h3
    have ht : trim s = ((s.dropWhile isSpace).reverse.dropWhile isSpace).reverse := rfl
    rw [← ht] at h3
    apply dropWhile_head isSpace s x
    rw [← h3]
    cases hts : trim s with
    | nil => rw [hts] at h; simp at h
    | cons y t =>
      rw [hts] at h
      simpa using h
  · intro h
    unfold trim at h
    rw [List.getLast?_reverse] at h
    exact dropWhile_head isSpace _ x h

/-- Counterexample to C6 as stated: `a@b.c@d` is non-empty and has the claimed shape
(its last part `c@d` has no whitespace), yet the code gives it the message
`Email inválido`, since the last part may not hold an `@` either. -/
theorem emailCheck_rejects_at_in_last_part :
    lit "a@b.c@d" ≠ [] ∧ EmailShape (fun x => !isSpace x) (lit "a@b.c@d") ∧
      emailRegex.test (lit "a@b.c@d") = false ∧
      emailCustomValidity (lit "a@b.c@d") = lit "Email inválido" := by
  refine ⟨by decide, ⟨lit "a", lit "b", lit "c@d", by decide, by decide, by decide, by decide,
    by decide, by decide, by decide⟩, by decide, by decide⟩

/-- Claim C6, amended: the e-mail check accepts a value exactly when the whole
value is one or more characters that are neither whitespace nor `@`, then `@`,
then one or more such characters, then `.`, then one or more characters that are
neither whitespace nor `@`; a non-empty value gets no message exactly when it
has that shape, every other non-empty value gets `Email inválido`, and the
empty value gets no message. -/
theorem emailCheck_spec (v : JSString) :
    (emailRegex.test v = true ↔ EmailShape notSpaceAt v) ∧
      (v ≠ [] → (emailCustomValidity v = lit "" ↔ EmailShape notSpaceAt v)) ∧
      (v ≠ [] → ¬ EmailShape notSpaceAt v → emailCustomValidity v = lit "Email inválido") ∧
      emailCustomValidity [] = lit "" := by
  have htest : emailRegex.test v = true ↔ EmailShape notSpaceAt v := by
    rw [Regex.test_iff, emailRegex_lang]
  have hne : lit "Email inválido" ≠ lit "" := by decide
  refine ⟨htest, ?_, ?_, by decide⟩
  · intro hv
    have hlen : v.length > 0 := List.length_pos.mpr hv
    rw [← htest]
    unfold emailCustomValidity
    cases h : emailRegex.test v
    · simp [hlen, hne]
    · simp
  · intro hv hshape
    have hlen : v.length > 0 := List.length_pos.mpr hv
    have hf : emailRegex.test v = false := by
      rw [← Bool.not_eq_true, htest]
      exact hshape
    unfold emailCustomValidity
    simp [hf, hlen]

/-- Witness of the amended C6 at `a@b.c` (accepted) and `a@b.c@d` (rejected). -/
theorem emailCheck_spec_witness :
    emailCustomValidity (lit "a@b.c") = lit "" ∧
      emailCustomValidity (lit "a@b.c@d") = lit "Email inválido" :=
  ⟨((emailCheck_spec (lit "a@b.c")).2.1 (by decide)).mpr
      ⟨lit "a", lit "b", lit "c", by decide, by decide, by decide, by decide, by decide,
        by decide, by decide⟩,
    (emailCheck_spec (lit "a@b.c@d")).2.2.1 (by decide)
      (fun h => absurd ((emailCheck_spec (lit "a@b.c@d")).1.mpr h) (by decide))⟩

/-- Claim C7: the CSV text of `exportTableToCSV` is the rows joined by one newline,
each row its cells joined by a comma, each cell its text with leading and
trailing whitespace trimmed, wrapped in one pair of double quotes; nothing
follows the last row (no trailing newline); the rows `[[a, b], [c, d]]` give
`"a","b"`, newline, `"c","d"`. -/
theorem exportTableToCSV_spec :
    (∀ rows : List (List JSString),
      exportTableToCSV rows =
        List.intercalate [10] (rows.map (fun row =>
          List.intercalate [44] (row.map (fun cell => [34] ++ trim cell ++ [34]))))) ∧
    (∀ cell : JSString, ∃ pre post : JSString, cell = pre ++ trim cell ++ post ∧
      (∀ x ∈ pre, isSpace x = true) ∧ (∀ x ∈ post, isSpace x = true) ∧
      (∀ x, (trim cell).head? = some x → isSpace x = false) ∧
      (∀ x, (trim cell).getLast? = some x → isSpace x = false)) ∧
    (∀ (rows : List (List JSString)) (row : List JSString), rows ≠ [] →
      exportTableToCSV (rows ++ [row]) =
        exportTableToCSV rows ++ [10] ++ exportTableToCSV [row]) ∧
    (∀ (row : List JSString) (cell : JSString), row ≠ [] →
      exportTableToCSV [row ++ [cell]] =
        exportTableToCSV [row] ++ [44] ++ ([34] ++ trim cell ++ [34])) ∧
    exportTableToCSV [[lit "a", lit "b"], [lit "c", lit "d"]] =
      lit "\"a\",\"b\"" ++ [10] ++ lit "\"c\",\"d\"" := by
  refine ⟨?_, ?_, ?_, ?_, by decide⟩
  · intro rows
    unfold exportTableToCSV
    rw [join_eq_intercalate]
    congr 1
    apply List.map_congr_left
    intro row _
    rw [join_eq_intercalate]
    rfl
  · intro cell
    obtain ⟨pre, post, h, hpre, hpost⟩ := trim_decompose cell
    exact ⟨pre, post, h, hpre, hpost, fun x => (trim_ends cell x).1,
      fun x => (trim_ends cell x).2⟩
  · intro rows row hne
    unfold exportTableToCSV
    rw [List.map_append, List.map_singleton, join_append_singleton _ _ _ (by simpa using hne)]
    rfl
  · intro row cell hne
    unfold exportTableToCSV
    simp only [List.map_cons, List.map_nil, join]
    rw [List.map_append, List.map_singleton, join_append_singleton _ _ _ (by simpa using hne)]
    rfl

/-- Witness of C7 at the table `[[a, b], [c, d]]` split before its last row, and at
the row `[a, b]` split before its last cell. -/
theorem exportTableToCSV_spec_witness :
    exportTableToCSV ([[lit "a", lit "b"]] ++ [[lit "c", lit " d "]]) =
        exportTableToCSV [[lit "a", lit "b"]] ++ [10] ++ exportTableToCSV [[lit "c", lit " d "]] ∧
      exportTableToCSV [[lit "a"] ++ [lit " b"]] =
        exportTableToCSV [[lit "a"]] ++ [44] ++ ([34] ++ trim (lit " b") ++ [34]) :=
  ⟨exportTableToCSV_spec.2.2.1 [[lit "a", lit "b"]] [lit "c", lit " d "] (by decide),
    exportTableToCSV_spec.2.2.2.1 [lit "a"] (lit " b") (by decide)⟩

/-- Claim C8: whatever the original label and the outcome of the request (business
success, business failure, transport failure), once the request has completed
the button's label is the one it had before the call and the button is enabled;
a page reload with a delay of 1500 ms is scheduled when the outcome is a
business success, and nothing is scheduled otherwise; while the request is in
flight the button is disabled. -/
theorem registerTime_restores_button (o : Outcome) (p : Page) :
    (registerTime o p).label = p.label ∧
      (registerTime o p).disabled = false ∧
      (registerTime o p).reloadTimers =
        p.reloadTimers ++ (if o.isSuccess = true then [1500] else []) ∧
      ((registerTime o p).reloadTimers ≠ p.reloadTimers ↔ o.isSuccess = true) ∧
      (registerTimeStart p).disabled = true := by
  cases o with
  | response success message =>
    cases success <;> simp [registerTime, registerTimeStart, registerTimeSuccess,
      registerTimeComplete, showNotification, Outcome.isSuccess]
  | transportFailure =>
    simp [registerTime, registerTimeStart, registerTimeError, registerTimeComplete,
      showNotification, Outcome.isSuccess]

/-- Claim C9: at local time `hour:minute`, `checkDailyNotifications` asks for the
morning reminder exactly when the time is 09:00 and for the evening reminder
exactly when the time is 17:00; it never asks for both in one run, and at 08:59
and 09:01 it asks for nothing. -/
theorem checkDailyNotifications_spec (hour minute : Nat) :
    (Reminder.morning ∈ checkDailyNotifications hour minute ↔ hour = 9 ∧ minute = 0) ∧
      (Reminder.evening ∈ checkDailyNotifications hour minute ↔ hour = 17 ∧ minute = 0) ∧
      ¬ (Reminder.morning ∈ checkDailyNotifications hour minute ∧
          Reminder.evening ∈ checkDailyNotifications hour minute) ∧
      (¬ (hour = 9 ∧ minute = 0) → ¬ (hour = 17 ∧ minute = 0) →
        checkDailyNotifications hour minute = []) ∧
      checkDailyNotifications 9 0 = [Reminder.morning] ∧
      checkDailyNotifications 17 0 = [Reminder.evening] ∧
      checkDailyNotifications 8 59 = [] ∧ checkDailyNotifications 9 1 = [] := by
  have hm : Reminder.morning ∈ checkDailyNotifications hour minute ↔ hour = 9 ∧ minute = 0 := by
    unfold checkDailyNotifications
    by_cases h1 : hour = 9 ∧ minute = 0 <;> by_cases h2 : hour = 17 ∧ minute = 0 <;>
      simp [h1, h2]
  have he : Reminder.evening ∈ checkDailyNotifications hour minute ↔ hour = 17 ∧ minute = 0 := by
    unfold checkDailyNotifications
    by_cases h1 : hour = 9 ∧ minute = 0 <;> by_cases h2 : hour = 17 ∧ minute = 0 <;>
      simp [h1, h2]
  refine ⟨hm, he, ?_, ?_, by decide, by decide, by decide, by decide⟩
  · rw [hm, he]
    omega
  · intro h1 h2
    unfold checkDailyNotifications
    simp [h1, h2]

/-- Witness of C9 at 12:30, a time that is neither 09:00 nor 17:00. -/
theorem checkDailyNotifications_spec_witness : checkDailyNotifications 12 30 = [] :=
  (checkDailyNotifications_spec 12 30).2.2.2.1 (by decide) (by decide)

/-- Claim C10: the message shown in the dropdown is the message itself when it has
at most 80 characters, and otherwise exactly its first 80 characters followed by
`...`. -/
theorem truncateMessage_spec (message : JSString) :
    (message.length ≤ 80 → truncateMessage message = message) ∧
      (message.length > 80 →
        truncateMessage message = message.take 80 ++ [46, 46, 46] ∧
          (message.take 80).length = 80 ∧
          (truncateMessage message).length = 83) := by
  constructor
  · intro h
    unfold truncateMessage
    simp [Nat.not_lt.mpr h]
  · intro h
    have hl : (message.take 80).length = 80 := by
      rw [List.length_take]
      omega
    have ht : truncateMessage message = message.take 80 ++ [46, 46, 46] := by
      unfold truncateMessage
      simp only [h, if_true]
      rfl
    refine ⟨ht, hl, ?_⟩
    rw [ht, List.length_append, hl]
    rfl

/-- Witness of C10 at a message of five characters and at one of 81 characters. -/
theorem truncateMessage_spec_witness :
    truncateMessage (lit "Ponto") = lit "Ponto" ∧
      truncateMessage (List.replicate 81 97) = List.replicate 80 97 ++ [46, 46, 46] :=
  ⟨(truncateMessage_spec (lit "Ponto")).1 (by decide),
    ((truncateMessage_spec (List.replicate 81 97)).2 (by decide)).1.trans (by decide)⟩

/-! ## The masks keep the digits and are idempotent -/

theorem ten_of_length {α : Type} (t : List α) (h : t.length = 10) :
    ∃ c1 c2 c3 c4 c5 c6 c7 c8 c9 c10, t = [c1, c2, c3, c4, c5, c6, c7, c8, c9, c10] := by
  match t, h with
  | [c1, c2, c3, c4, c5, c6, c7, c8, c9, c10], _ =>
    exact ⟨c1, c2, c3, c4, c5, c6, c7, c8, c9, c10, rfl⟩

theorem stripNonDigits_append (a b : JSString) :
    stripNonDigits (a ++ b) = stripNonDigits a ++ stripNonDigits b := by
  unfold stripNonDigits
  exact List.filter_append a b

theorem stripNonDigits_idem (s : JSString) :
    stripNonDigits (stripNonDigits s) = stripNonDigits s :=
  stripNonDigits_of_all_digits _ (fun _ hx => isDigit_of_mem_strip hx)

theorem strip_of_subset {l d : JSString} (hall : ∀ x ∈ d, isDigit x = true) (h : l ⊆ d) :
    stripNonDigits l = l :=
  stripNonDigits_of_all_digits l (fun x hx => hall x (h hx))

/-- The digits of a formatted CPF are the eleven digits it was built from. -/
theorem strip_cpfFormat (d : JSString) (hall : ∀ x ∈ d, isDigit x = true)
    (hlen : d.length = 11) : stripNonDigits (cpfFormat d) = d := by
  obtain ⟨c1, c2, c3, c4, c5, c6, c7, c8, c9, c10, c11, rfl⟩ := eleven_of_length d hlen
  have e : cpfFormat [c1, c2, c3, c4, c5, c6, c7, c8, c9, c10, c11] =
      [c1, c2, c3] ++ ([46] ++ ([c4, c5, c6] ++ ([46] ++ ([c7, c8, c9] ++ ([45] ++
        [c10, c11]))))) := rfl
  have hdot : stripNonDigits [46] = [] := by decide
  have hdash : stripNonDigits [45] = [] := by decide
  rw [e]
  simp only [stripNonDigits_append, hdot, hdash,
    strip_of_subset hall (show [c1, c2, c3] ⊆ _ by simp),
    strip_of_subset hall (show [c4, c5, c6] ⊆ _ by simp),
    strip_of_subset hall (show [c7, c8, c9] ⊆ _ by simp),
    strip_of_subset hall (show [c10, c11] ⊆ _ by simp)]
  rfl

/-- The digits of a formatted ten-digit phone are the digits it was built from. -/
theorem strip_phoneFormat10 (d : JSString) (hall : ∀ x ∈ d, isDigit x = true)
    (hlen : d.length = 10) : stripNonDigits (phoneFormat10 d) = d := by
  obtain ⟨c1, c2, c3, c4, c5, c6, c7, c8, c9, c10, rfl⟩ := ten_of_length d hlen
  have e : phoneFormat10 [c1, c2, c3, c4, c5, c6, c7, c8, c9, c10] =
      [40] ++ ([c1, c2] ++ ([41, 32] ++ ([c3, c4, c5, c6] ++ ([45] ++
        [c7, c8, c9, c10])))) := rfl
  have hopen : stripNonDigits [40] = [] := by decide
  have hclose : stripNonDigits [41, 32] = [] := by decide
  have hdash : stripNonDigits [45] = [] := by decide
  rw [e]
  simp only [stripNonDigits_append, hopen, hclose, hdash,
    strip_of_subset hall (show [c1, c2] ⊆ _ by simp),
    strip_of_subset hall (show [c3, c4, c5, c6] ⊆ _ by simp),
    strip_of_subset hall (show [c7, c8, c9, c10] ⊆ _ by simp)]
  rfl

/-- The digits of a formatted eleven-digit phone are the digits it was built from. -/
theorem strip_phoneFormat11 (d : JSString) (hall : ∀ x ∈ d, isDigit x = true)
    (hlen : d.length = 11) : stripNonDigits (phoneFormat11 d) = d := by
  obtain ⟨c1, c2, c3, c4, c5, c6, c7, c8, c9, c10, c11, rfl⟩ := eleven_of_length d hlen
  have e : phoneFormat11 [c1, c2, c3, c4, c5, c6, c7, c8, c9, c10, c11] =
      [40] ++ ([c1, c2] ++ ([41, 32] ++ ([c3, c4, c5, c6, c7] ++ ([45] ++
        [c8, c9, c10, c11])))) := rfl
  have hopen : stripNonDigits [40] = [] := by decide
  have hclose : stripNonDigits [41, 32] = [] := by decide
  have hdash : stripNonDigits [45] = [] := by decide
  rw [e]
  simp only [stripNonDigits_append, hopen, hclose, hdash,
    strip_of_subset hall (show [c1, c2] ⊆ _ by simp),
    strip_of_subset hall (show [c3, c4, c5, c6, c7] ⊆ _ by simp),
    strip_of_subset hall (show [c8, c9, c10, c11] ⊆ _ by simp)]
  rfl

/-- The replacement of a fixed-width digit run keeps the digits of a string of
digits no longer than the run, when the format keeps the digits of a full run. -/
theorem strip_replaceFirstDigits (n : Nat) (fmt : JSString → JSString) (d : JSString)
    (hall : ∀ x ∈ d, isDigit x = true) (hlen : d.length ≤ n)
    (hfmt : d.length = n → stripNonDigits (fmt d) = d) :
    stripNonDigits (replaceFirstDigits n fmt d) = d := by
  rcases Nat.lt_or_eq_of_le hlen with hlt | heq
  · rw [replaceFirstDigits_short n fmt d hlt]
    exact stripNonDigits_of_all_digits d hall
  · have h := replaceFirstDigits_exact fmt d hall
    rw [heq] at h
    rw [h]
    exact hfmt heq

/-- The CPF mask keeps the digits of the text. -/
theorem strip_cpfMask (x : JSString) : stripNonDigits (cpfMask x) = stripNonDigits x := by
  have hall : ∀ c ∈ stripNonDigits x, isDigit c = true := fun _ hc => isDigit_of_mem_strip hc
  unfold cpfMask
  by_cases h : (stripNonDigits x).length ≤ 11
  · simp only [h, if_true]
    exact strip_replaceFirstDigits 11 cpfFormat _ hall h (strip_cpfFormat _ hall)
  · simp only [h, if_false]

/-- The phone mask keeps the digits of the text. -/
theorem strip_phoneMask (x : JSString) : stripNonDigits (phoneMask x) = stripNonDigits x := by
  have hall : ∀ c ∈ stripNonDigits x, isDigit c = true := fun _ hc => isDigit_of_mem_strip hc
  unfold phoneMask
  by_cases h : (stripNonDigits x).length ≤ 11
  · by_cases h10 : (stripNonDigits x).length ≤ 10
    · simp only [h, h10, if_true]
      exact strip_replaceFirstDigits 10 phoneFormat10 _ hall h10 (strip_phoneFormat10 _ hall)
    · simp only [h, h10, if_true, if_false]
      exact strip_replaceFirstDigits 11 phoneFormat11 _ hall h (strip_phoneFormat11 _ hall)
  · simp only [h, if_false]

/-- The CPF mask applied to its own output gives that output again: the output has
the digits of the text, and the mask either depends on the text through its
digits only or leaves the text alone. -/
theorem cpfMask_idem (x : JSString) : cpfMask (cpfMask x) = cpfMask x := by
  have hs := strip_cpfMask x
  by_cases h : (stripNonDigits x).length ≤ 11
  · have e : ∀ y : JSString, stripNonDigits y = stripNonDigits x →
        cpfMask y = replaceFirstDigits 11 cpfFormat (stripNonDigits x) := by
      intro y hy
      unfold cpfMask
      simp only [hy, h, if_true]
    rw [e _ hs, e x rfl]
  · have e : cpfMask x = x := by
      unfold cpfMask
      simp only [h, if_false]
    rw [e, e]

/-- The phone mask applied to its own output gives that output again. -/
theorem phoneMask_idem (x : JSString) : phoneMask (phoneMask x) = phoneMask x := by
  have hs := strip_phoneMask x
  by_cases h : (stripNonDigits x).length ≤ 11
  · have e : ∀ y : JSString, stripNonDigits y = stripNonDigits x →
        phoneMask y =
          if (stripNonDigits x).length ≤ 10 then
            replaceFirstDigits 10 phoneFormat10 (stripNonDigits x)
          else replaceFirstDigits 11 phoneFormat11 (stripNonDigits x) := by
      intro y hy
      unfold phoneMask
      simp only [hy, h, if_true]
    rw [e _ hs, e x rfl]
  · have e : phoneMask x = x := by
      unfold phoneMask
      simp only [h, if_false]
    rw [e, e]

/-- Claim C11: the CPF mask never changes the validator's verdict: the decimal
digits of the masked text are the decimal digits of the text, in order, and so
`validateCPF(cpfMask(x)) = validateCPF(x)` for every field text `x`. -/
theorem cpfMask_preserves_verdict (x : JSString) :
    digitsOf (cpfMask x) = digitsOf x ∧ stripNonDigits (cpfMask x) = stripNonDigits x ∧
      validateCPF (cpfMask x) = validateCPF x := by
  have hs := strip_cpfMask x
  refine ⟨?_, hs, ?_⟩
  · unfold digitsOf
    rw [hs]
  · unfold validateCPF
    simp only [hs]

/-- Claim C12: both input masks are idempotent: applying the CPF mask to its own
output gives that output again, and likewise for the phone mask, for every
field text. -/
theorem masks_idempotent :
    (∀ x : JSString, cpfMask (cpfMask x) = cpfMask x) ∧
      (∀ x : JSString, phoneMask (phoneMask x) = phoneMask x) ∧
      cpfMask (cpfMask (lit "12345678901")) = lit "123.456.789-01" ∧
      phoneMask (phoneMask (lit "11987654321")) = lit "(11) 98765-4321" ∧
      phoneMask (phoneMask (lit "1134567890")) = lit "(11) 3456-7890" :=
  ⟨cpfMask_idem, phoneMask_idem, by decide, by decide, by decide⟩

end SKPonto
